import Mathlib

/-!
Shallow embedding of `packages/next/next-server/server/config.ts`:
the Next.js configuration loader (defaults, shallow merge, validation,
file lookup, serverless helpers).

JavaScript values appearing in configuration records are modelled by the
inductive type `JVal`.  Objects are ordered association lists of
string keys (JavaScript objects never hold duplicate keys; theorems that
need uniqueness state it explicitly).  Functions stored inside
configuration values (such as `generateBuildId`) are opaque tagged
values: the loader never calls them, it only moves them around and asks
whether they are functions (`typeof x === 'function'`).
-/

inductive JVal where
  | str : String → JVal
  | num : Int → JVal
  | bool : Bool → JVal
  | null : JVal
  | func : String → JVal
  | obj : List (String × JVal) → JVal
  | arr : List JVal → JVal

abbrev JEntries := List (String × JVal)

mutual
/-- Structural equality test on `JVal`.  The source compares values with
`===`/`!==`; for primitives that is value equality, and for objects it is
reference equality, which a shallow embedding approximates structurally. -/
def jvalBeq : JVal → JVal → Bool
  | .str a, .str b => a == b
  | .num a, .num b => a == b
  | .bool a, .bool b => a == b
  | .null, .null => true
  | .func a, .func b => a == b
  | .obj a, .obj b => jentriesBeq a b
  | .arr a, .arr b => jvalsBeq a b
  | _, _ => false
def jentriesBeq : JEntries → JEntries → Bool
  | [], [] => true
  | (k1, v1) :: r1, (k2, v2) :: r2 => k1 == k2 && jvalBeq v1 v2 && jentriesBeq r1 r2
  | _, _ => false
def jvalsBeq : List JVal → List JVal → Bool
  | [], [] => true
  | v1 :: r1, v2 :: r2 => jvalBeq v1 v2 && jvalsBeq r1 r2
  | _, _ => false
end

/-- JavaScript truthiness of a value (`if (x)`).  Objects, arrays and
functions are always truthy; `''`, `0`, `false` and `null` are falsy. -/
def truthy : JVal → Bool
  | .str s => s ≠ ""
  | .num n => n ≠ 0
  | .bool b => b
  | .null => false
  | .func _ => true
  | .obj _ => true
  | .arr _ => true

/-- Truthiness of a possibly-undefined value (`undefined` is falsy). -/
def truthyO : Option JVal → Bool
  | some v => truthy v
  | none => false

/-- First value stored under key `k` (JavaScript objects hold each key once,
so the first match is the value). `none` models `undefined`. -/
def lookupEntries : JEntries → String → Option JVal
  | [], _ => none
  | (k1, v1) :: r, k => if k1 = k then some v1 else lookupEntries r k

/-- Property access `v[k]` / `v.k`: only objects carry named properties in
this model; on every other value the access yields `undefined`. -/
def getProp : JVal → String → Option JVal
  | .obj l, k => lookupEntries l k
  | _, _ => none

/-- Object spread `\x7b ...a, ...b \x7d`: the keys of `a` keep their positions
(overwritten with the value from `b` when `b` also holds the key), and the
keys of `b` not present in `a` are appended in order. -/
def mergeEntries (a b : JEntries) : JEntries :=
  (a.map fun p => match lookupEntries b p.1 with
    | some w => (p.1, w)
    | none => p) ++
  b.filter fun p => (lookupEntries a p.1).isNone

/-- Property assignment `o[k] = v` on an object that already holds `k`:
the stored value is replaced in place, the key order is unchanged.  (When
`k` is absent the entry is appended, as in JavaScript.) -/
def setEntry (l : JEntries) (k : String) (v : JVal) : JEntries :=
  if (lookupEntries l k).isSome then
    l.map fun p => if p.1 = k then (k, v) else p
  else
    l ++ [(k, v)]

/-- Entries `(i, x)` of a list indexed from `i₀`, as string keys — the
enumerable own properties of a JavaScript array or string. -/
def indexedEntries (i : Nat) : List JVal → JEntries
  | [] => []
  | v :: r => (toString i, v) :: indexedEntries (i + 1) r

/-- Enumerable own entries contributed by spreading a value into an object
literal: objects give their entries, arrays and strings their indexed
elements, and every other value (numbers, booleans, `null`, functions)
contributes nothing. -/
def toSpreadEntries : JVal → JEntries
  | .obj l => l
  | .arr l => indexedEntries 0 l
  | .str s => indexedEntries 0 (s.data.map fun c => JVal.str c.toString)
  | _ => []

/-- Number of enumerable own keys, `Object.keys(v).length`. -/
def jsKeysLength : JVal → Nat
  | .obj l => l.length
  | .arr l => l.length
  | .str s => s.length
  | _ => 0

/-- `target === 'serverless' || target === 'experimental-serverless-trace'`
(source: `isTargetLikeServerless`). -/
def isTargetLikeServerless (target : String) : Bool :=
  let isServerless := target == "serverless"
  let isServerlessTrace := target == "experimental-serverless-trace"
  isServerless || isServerlessTrace

/-- The three legal `target` values (source: `targets`). -/
def targets : List String :=
  ["server", "serverless", "experimental-serverless-trace"]

/-- The three legal `experimental.reactMode` values (source: `reactModes`). -/
def reactModes : List String :=
  ["legacy", "blocking", "concurrent"]

/-- `list.includes(v)` where `list` holds strings: `includes` uses
SameValueZero, so a non-string value never matches. -/
def strIncludes (l : List String) : JVal → Bool
  | .str s => l.contains s
  | _ => false

/-- Strict string equality `v === s` against a string literal. -/
def isStrVal : Option JVal → String → Bool
  | some (.str a), b => a == b
  | _, _ => false

/-- Modelled from the spec: `CONFIG_FILE` is imported from
`../lib/constants`, which is not part of this source tree; the spec names
the configuration file `next.config.js` (with a `.ts` variant obtained by
swapping the extension). -/
def CONFIG_FILE : String := "next.config.js"

/-- The default configuration record (source: `defaultConfig`).  The one
environment-dependent field, `experimental.cpus`, is
`Math.max(1, (Number(process.env.CIRCLE_NODE_TOTAL) || os.cpus().length) - 1)`;
its computed value is taken here as the parameter `cpus`. -/
def defaultConfig (cpus : Int) : JEntries :=
  [ ("env", .arr []),
    ("webpack", .null),
    ("webpackDevMiddleware", .null),
    ("distDir", .str ".next"),
    ("assetPrefix", .str ""),
    ("configOrigin", .str "default"),
    ("useFileSystemPublicRoutes", .bool true),
    ("generateBuildId", .func "generateBuildId"),
    ("generateEtags", .bool true),
    ("pageExtensions", .arr [.str "tsx", .str "ts", .str "jsx", .str "js"]),
    ("target", .str "server"),
    ("poweredByHeader", .bool true),
    ("compress", .bool true),
    ("devIndicators", .obj
      [ ("buildActivity", .bool true),
        ("autoPrerender", .bool true) ]),
    ("onDemandEntries", .obj
      [ ("maxInactiveAge", .num 60000),
        ("pagesBufferLength", .num 2) ]),
    ("amp", .obj [("canonicalBase", .str "")]),
    ("exportTrailingSlash", .bool false),
    ("experimental", .obj
      [ ("ampBindInitData", .bool false),
        ("cpus", .num cpus),
        ("catchAllRouting", .bool false),
        ("css", .bool false),
        ("documentMiddleware", .bool false),
        ("granularChunks", .bool false),
        ("modern", .bool false),
        ("plugins", .bool false),
        ("profiling", .bool false),
        ("sprFlushToDisk", .bool true),
        ("deferScripts", .bool false),
        ("reactMode", .str "legacy"),
        ("workerThreads", .bool false) ]),
    ("future", .obj [("excludeDefaultMomentLocales", .bool false)]),
    ("serverRuntimeConfig", .obj []),
    ("publicRuntimeConfig", .obj []),
    ("reactStrictMode", .bool false) ]

/-- Modelled from the spec: the warning is wrapped in `execOnce` from
`../lib/utils`, which is not part of this source tree.  The spec describes
it as a process-wide set-once flag, never reset, so that the warning body
runs at most once per process.  `warned` is the flag; `emitted` counts how
many times the warning body actually printed. -/
structure WarnState where
  warned : Bool
  emitted : Nat
deriving DecidableEq

/-- Source: `experimentalWarning` — the `execOnce`-wrapped warning.  The
body (three `console.warn` lines) runs only when the flag is still unset,
and sets it. -/
def experimentalWarning (s : WarnState) : WarnState :=
  if s.warned then s else { warned := true, emitted := s.emitted + 1 }

/-- Error thrown when `distDir` is set to the reserved name `public`
(source: `assignDefaults`). -/
def distDirErrorMsg : String :=
  "The 'public' directory is reserved in Next.js and can not be set as the 'distDir'. https://err.sh/zeit/next.js/can-not-output-to-public"

/-- Error thrown when a configuration function returns a thenable
(source: `normalizeConfig`). -/
def promiseErrorMsg : String :=
  "> Promise returned in next config. https://err.sh/zeit/next.js/promise-in-next-config"

/-- Error thrown when runtime-config records are combined with a
non-`server` target (source: `loadConfig`). -/
def runtimeConfigErrorMsg : String :=
  "Cannot use publicRuntimeConfig or serverRuntimeConfig with target=serverless https://err.sh/zeit/next.js/serverless-publicRuntimeConfig"

mutual
/-- JavaScript string conversion as used by template literals, for the
values interpolated into error messages. -/
def jvalToDisplay : JVal → String
  | .str s => s
  | .num n => toString n
  | .bool b => if b then "true" else "false"
  | .null => "null"
  | .func f => f
  | .obj _ => "[object Object]"
  | .arr l => jvalsToDisplay l
def jvalsToDisplay : List JVal → String
  | [] => ""
  | [v] => jvalToDisplay v
  | v :: r => jvalToDisplay v ++ "," ++ jvalsToDisplay r
end

/-- Template-literal conversion of a possibly-undefined value. -/
def jvalODisplay : Option JVal → String
  | some v => jvalToDisplay v
  | none => "undefined"

/-- Error thrown for a truthy `target` outside the legal set
(source: `loadConfig`); it lists the valid values. -/
def invalidTargetMsg (t : Option JVal) : String :=
  "Specified target is invalid. Provided: \"" ++ jvalODisplay t ++
    "\" should be one of " ++ String.intercalate ", " targets

/-- Error thrown for a truthy `experimental.reactMode` outside the legal
set (source: `loadConfig`); it lists the valid values. -/
def invalidReactModeMsg (v : Option JVal) : String :=
  "Specified React Mode is invalid. Provided: " ++ jvalODisplay v ++
    " should be one of " ++ String.intercalate ", " reactModes

/-- `path.basename`: the final component of a slash-separated path. -/
def basenameStr (p : String) : String :=
  (p.splitOn "/").reverse.headD p

/-- Error thrown when only an unsupported-extension configuration file was
found (source: `loadConfig`); it names that file and both supported
replacements. -/
def nonJsErrorMsg (nonJsPath : String) : String :=
  "Configuring Next.js via '" ++ basenameStr nonJsPath ++
    "' is not supported. Please replace the file with 'next.config.js' or 'next.config.ts'."

/-- `!!maybeObject && maybeObject.constructor === Object`: only plain
objects have constructor `Object` (arrays, strings, numbers, booleans and
functions have their own constructors, and `null` is excluded by the
truthiness guard). -/
def isPlainObject : JVal → Bool
  | .obj _ => true
  | _ => false

/-- `defaultConfig[key] || \x7b\x7d`, spread into an object literal. -/
def defaultOrEmptySpread (cpus : Int) (k : String) : JEntries :=
  match lookupEntries (defaultConfig cpus) k with
  | some v => if truthy v then toSpreadEntries v else []
  | none => []

/-- The per-key rewrite of `assignDefaults`: a plain-object user value is
replaced by `\x7b ...(defaultConfig[key] || \x7b\x7d), ...userConfig[key] \x7d`,
every other value is kept unchanged. -/
def transformEntry (cpus : Int) (k : String) (v : JVal) : JVal :=
  if truthy v && isPlainObject v then
    .obj (mergeEntries (defaultOrEmptySpread cpus k) (toSpreadEntries v))
  else v

/-- The `Object.keys(userConfig).forEach` body of `assignDefaults`, walked
over the remaining entries: the experimental warning fires for a truthy
`experimental` value differing from the default one, `distDir: 'public'`
throws, and plain-object values are shallow-merged over the matching
default.  The warning flag is threaded; a throw aborts the walk. -/
def assignDefaultsGo (cpus : Int) : WarnState → JEntries → WarnState × Except String JEntries
  | s, [] => (s, .ok [])
  | s, (k, v) :: rest =>
    let s1 :=
      if k == "experimental" && truthy v
          && !(match lookupEntries (defaultConfig cpus) k with
               | some d => jvalBeq v d
               | none => false) then
        experimentalWarning s
      else s
    if k == "distDir" && jvalBeq v (.str "public") then
      (s1, .error distDirErrorMsg)
    else
      match assignDefaultsGo cpus s1 rest with
      | (s2, .ok rest2) => (s2, .ok ((k, transformEntry cpus k v) :: rest2))
      | (s2, .error e) => (s2, .error e)

/-- Source: `assignDefaults` — rewrite the user entries key by key, then
return `\x7b ...defaultConfig, ...userConfig \x7d`. -/
def assignDefaults (cpus : Int) (s : WarnState) (userConfig : JEntries) :
    WarnState × Except String JEntries :=
  match assignDefaultsGo cpus s userConfig with
  | (s2, .ok u2) => (s2, .ok (mergeEntries (defaultConfig cpus) u2))
  | (s2, .error e) => (s2, .error e)

/-- A loaded configuration export: either a plain value or a callable
taking `(phase, helpers)` (the tagged variant of §9 of the spec). -/
inductive ConfigExport where
  | value : JVal → ConfigExport
  | factory : (String → JVal → JVal) → ConfigExport

/-- Truthiness of a loaded export (functions are always truthy). -/
def exportTruthy : ConfigExport → Bool
  | .value v => truthy v
  | .factory _ => true

/-- The value `require(path)` returns: the module itself together with its
`default` export, when the module object carries one. -/
structure UserModule where
  defaultExport : Option ConfigExport
  moduleSelf : ConfigExport

/-- `userConfigModule.default || userConfigModule`. -/
def moduleEffective (m : UserModule) : ConfigExport :=
  match m.defaultExport with
  | some e => if exportTruthy e then e else m.moduleSelf
  | none => m.moduleSelf

/-- `typeof config.then === 'function'`: the value exposes a `then`
function, i.e. looks like a promise. -/
def isThenable (v : JVal) : Bool :=
  match getProp v "then" with
  | some (.func _) => true
  | _ => false

/-- The TypeError JavaScript raises when `normalizeConfig` probes
`config.then` on a nullish value: property access on `null` (or
`undefined`, which this model folds into `JVal.null`) throws before
`typeof` is evaluated, so a callable export returning a nullish value
crashes the load instead of being used. -/
def thenAccessTypeError : String :=
  "TypeError: Cannot read property 'then' of null"

/-- Source: `normalizeConfig` — a callable export is invoked with the
phase and a helper object holding the default configuration; probing the
returned value for `then` crashes with a TypeError when that value is
nullish; when the returned value is a thenable the loader throws the
promise error (asynchronous configuration is unsupported); otherwise the
returned value is used; a non-callable export passes through unchanged. -/
def normalizeConfig (cpus : Int) (phase : String) : ConfigExport → Except String JVal
  | .value v => .ok v
  | .factory f =>
    let config := f phase (.obj [("defaultConfig", .obj (defaultConfig cpus))])
    match config with
    | .null => .error thenAccessTypeError
    | _ => if isThenable config then .error promiseErrorMsg else .ok config

/-- Lift of `strIncludes` to a possibly-undefined value. -/
def strIncludesO (l : List String) : Option JVal → Bool
  | some v => strIncludes l v
  | none => false

/-- Lift of `jsKeysLength` to a possibly-undefined value (every use in the
source is guarded by a truthiness test, so the `none` case is never the
deciding one). -/
def jsKeysLengthO : Option JVal → Nat
  | some v => jsKeysLength v
  | none => 0

/-- JavaScript `canonicalBase.endsWith('/')`: the slash is a single code
unit, so this is a test of the final character. -/
def endsWithSlash (s : String) : Bool :=
  s.data.getLast? == some (Char.ofNat 47)

/-- JavaScript `canonicalBase.slice(0, -1)`: everything but the final
character. -/
def dropLastChar (s : String) : String :=
  String.mk s.data.dropLast

/-- The `amp.canonicalBase` normalization block of `loadConfig`: when both
`userConfig.amp` and `userConfig.amp.canonicalBase` are truthy, one
trailing slash is stripped off `canonicalBase` and the property is
reassigned (the `|| ''` turns a falsy stripped value into the empty
string).  A truthy non-string `canonicalBase` would make `endsWith` throw
a `TypeError` in JavaScript; that crash is outside this model, which
leaves such a value unchanged. -/
def ampNormalize (userConfig : JVal) : JVal :=
  match userConfig with
  | .obj u =>
    match lookupEntries u "amp" with
    | some (.obj a) =>
      match lookupEntries a "canonicalBase" with
      | some (.str cb) =>
        if cb ≠ "" then
          let stripped := if endsWithSlash cb then dropLastChar cb else cb
          let final := if stripped = "" then "" else stripped
          .obj (setEntry u "amp" (.obj (setEntry a "canonicalBase" (.str final))))
        else userConfig
      | _ => userConfig
    | _ => userConfig
  | _ => userConfig

/-- Outcome of the two `findUp.sync` directory walks, abstracted over the
real filesystem: `findUpJs dir` is the nearest `next.config.js` /
`next.config.ts` at or above `dir` (`none` when the walk finds nothing),
`findUpNonJs dir` the nearest `.jsx`/`.tsx`/`.json` variant, and
`loadModule` the synchronous `require` of a found path. -/
structure FS where
  findUpJs : String → Option String
  findUpNonJs : String → Option String
  loadModule : String → UserModule

/-- The check-and-merge tail of the found-configuration branch of
`loadConfig`, taken once normalization has succeeded: run the `target`,
`amp.canonicalBase`, runtime-config and `reactMode` checks in order, and
merge onto the defaults with `configOrigin` set to the configuration file
name. -/
def loadConfigChecks (cpus : Int) (s : WarnState) (userConfig : JVal) :
    WarnState × Except String JEntries :=
  let tgt := getProp userConfig "target"
    if truthyO tgt && !(strIncludesO targets tgt) then
      (s, .error (invalidTargetMsg tgt))
    else
      let u2 := ampNormalize userConfig
      let tgt2 := getProp u2 "target"
      if truthyO tgt2 && !(isStrVal tgt2 "server")
          && ((truthyO (getProp u2 "publicRuntimeConfig")
                && jsKeysLengthO (getProp u2 "publicRuntimeConfig") != 0)
              || (truthyO (getProp u2 "serverRuntimeConfig")
                && jsKeysLengthO (getProp u2 "serverRuntimeConfig") != 0)) then
        (s, .error runtimeConfigErrorMsg)
      else
        let em := getProp u2 "experimental"
        let rm := match em with | some e => getProp e "reactMode" | none => none
        if truthyO em && truthyO rm && !(strIncludesO reactModes rm) then
          (s, .error (invalidReactModeMsg rm))
        else
          assignDefaults cpus s
            (mergeEntries [("configOrigin", .str CONFIG_FILE)] (toSpreadEntries u2))

/-- The `loadConfig` branch taken when a supported configuration file was
found: normalize the loaded module, then check and merge. -/
def loadConfigFound (cpus : Int) (fs : FS) (phase path : String) (s : WarnState) :
    WarnState × Except String JEntries :=
  match normalizeConfig cpus phase (moduleEffective (fs.loadModule path)) with
  | .error e => (s, .error e)
  | .ok userConfig => loadConfigChecks cpus s userConfig

/-- The `loadConfig` tail when no supported configuration file was found:
look for a same-named file in an unsupported extension purely to produce a
targeted error, otherwise return the default configuration itself. -/
def loadConfigNoFile (cpus : Int) (fs : FS) (dir : String) (s : WarnState) :
    WarnState × Except String JEntries :=
  match fs.findUpNonJs dir with
  | some nonJsPath =>
    if nonJsPath.length != 0 then
      (s, .error (nonJsErrorMsg nonJsPath))
    else (s, .ok (defaultConfig cpus))
  | none => (s, .ok (defaultConfig cpus))

/-- Source: `loadConfig(phase, dir, customConfig)`.  A truthy inline
configuration short-circuits to the merge with `configOrigin: 'server'`
(every object, even an empty one, is truthy, and `null`/`undefined` are
modelled by `none`); otherwise the configuration file is searched for
upward from `dir`, loaded, normalized, checked and merged.  The warning
flag is threaded explicitly; an `Except.error` models a thrown `Error`. -/
def loadConfig (cpus : Int) (fs : FS) (phase dir : String)
    (customConfig : Option JEntries) (s : WarnState) :
    WarnState × Except String JEntries :=
  match customConfig with
  | some c =>
    assignDefaults cpus s (mergeEntries [("configOrigin", .str "server")] c)
  | none =>
    match fs.findUpJs dir with
    | some path =>
      if path.length != 0 then loadConfigFound cpus fs phase path s
      else loadConfigNoFile cpus fs dir s
    | none => loadConfigNoFile cpus fs dir s

/-- The arguments of one `loadConfig` call, for stating process-lifetime
properties over call sequences. -/
structure LoadCall where
  cpus : Int
  fs : FS
  phase : String
  dir : String
  customConfig : Option JEntries

/-- A sequence of `loadConfig` calls in one process, threading the
process-wide warning flag. -/
def runCalls (calls : List LoadCall) (s : WarnState) : WarnState :=
  calls.foldl (fun st c => (loadConfig c.cpus c.fs c.phase c.dir c.customConfig st).1) s

/-- Whether an `Except` carries a success (no configuration error). -/
def exceptOk {α : Type} : Except String α → Bool
  | .ok _ => true
  | .error _ => false

/-! ### Lookup lemmas for the object model -/

theorem lookupEntries_append (xs ys : JEntries) (k : String) :
    lookupEntries (xs ++ ys) k =
      match lookupEntries xs k with
      | some v => some v
      | none => lookupEntries ys k := by
  induction xs with
  | nil => simp [lookupEntries]
  | cons p r ih =>
    obtain ⟨k1, v1⟩ := p
    by_cases h : k1 = k
    · simp [lookupEntries, h]
    · simp [lookupEntries, h, ih]

theorem lookupEntries_override (a b : JEntries) (k : String) :
    lookupEntries (a.map fun p => match lookupEntries b p.1 with
      | some w => (p.1, w)
      | none => p) k =
      match lookupEntries a k, lookupEntries b k with
      | none, _ => none
      | some _, some w => some w
      | some v, none => some v := by
  induction a with
  | nil => simp [lookupEntries]
  | cons p r ih =>
    obtain ⟨k1, v1⟩ := p
    by_cases h : k1 = k
    · subst h
      cases hb : lookupEntries b k1 <;> simp [lookupEntries, hb]
    · cases hb1 : lookupEntries b k1 <;> cases hb : lookupEntries b k <;>
        cases ha : lookupEntries r k <;>
          simp [lookupEntries, h, hb1, hb, ha, ih]

theorem lookupEntries_filterNotIn (a b : JEntries) (k : String) :
    lookupEntries (b.filter fun p => (lookupEntries a p.1).isNone) k =
      if (lookupEntries a k).isSome then none else lookupEntries b k := by
  induction b with
  | nil => simp [lookupEntries]
  | cons p r ih =>
    obtain ⟨k1, v1⟩ := p
    by_cases h : k1 = k
    · subst h
      cases ha : lookupEntries a k1 <;> simp [lookupEntries, List.filter, ha, ih]
    · cases ha : lookupEntries a k1 <;> cases ha2 : lookupEntries a k <;>
        simp [lookupEntries, List.filter_cons, ha, ha2, h, ih]

theorem lookupEntries_mergeEntries (a b : JEntries) (k : String) :
    lookupEntries (mergeEntries a b) k =
      match lookupEntries b k with
      | some w => some w
      | none => lookupEntries a k := by
  unfold mergeEntries
  rw [lookupEntries_append, lookupEntries_override, lookupEntries_filterNotIn]
  cases ha : lookupEntries a k <;> cases hb : lookupEntries b k <;> simp [ha, hb]

theorem mergeEntries_nil (b : JEntries) : mergeEntries [] b = b := by
  unfold mergeEntries
  simp [lookupEntries]

theorem lookupEntries_mapTransform (f : String → JVal → JVal) (u : JEntries) (k : String) :
    lookupEntries (u.map fun p => (p.1, f p.1 p.2)) k = (lookupEntries u k).map (f k) := by
  induction u with
  | nil => simp [lookupEntries]
  | cons p r ih =>
    obtain ⟨k1, v1⟩ := p
    by_cases h : k1 = k
    · subst h; simp [lookupEntries]
    · simp [lookupEntries, h, ih]

theorem lookupEntries_mapSet (l : JEntries) (k : String) (v : JVal) :
    lookupEntries (l.map fun p => if p.1 = k then (k, v) else p) k =
      if (lookupEntries l k).isSome then some v else none := by
  induction l with
  | nil => simp [lookupEntries]
  | cons p r ih =>
    obtain ⟨k1, v1⟩ := p
    simp only [List.map_cons]
    by_cases hk : k1 = k
    · subst hk
      rw [show (if ((k1, v1) : String × JVal).1 = k1 then (k1, v) else (k1, v1)) = (k1, v)
        from if_pos rfl]
      simp [lookupEntries]
    · rw [show (if ((k1, v1) : String × JVal).1 = k then (k, v) else (k1, v1)) = (k1, v1)
        from if_neg hk]
      simp [lookupEntries, hk, ih]

theorem lookupEntries_mapSet_other (l : JEntries) (k k2 : String) (v : JVal) (h : k2 ≠ k) :
    lookupEntries (l.map fun p => if p.1 = k then (k, v) else p) k2 = lookupEntries l k2 := by
  induction l with
  | nil => simp [lookupEntries]
  | cons p r ih =>
    obtain ⟨k1, v1⟩ := p
    simp only [List.map_cons]
    by_cases hk : k1 = k
    · subst hk
      rw [show (if ((k1, v1) : String × JVal).1 = k1 then (k1, v) else (k1, v1)) = (k1, v)
        from if_pos rfl]
      simp [lookupEntries, Ne.symm h, ih]
    · rw [show (if ((k1, v1) : String × JVal).1 = k then (k, v) else (k1, v1)) = (k1, v1)
        from if_neg hk]
      by_cases hk2 : k1 = k2
      · subst hk2; simp [lookupEntries]
      · simp [lookupEntries, hk2, ih]

theorem lookupEntries_setEntry_self (l : JEntries) (k : String) (v : JVal)
    (h : (lookupEntries l k).isSome) :
    lookupEntries (setEntry l k v) k = some v := by
  unfold setEntry
  rw [if_pos h, lookupEntries_mapSet, if_pos h]

theorem lookupEntries_setEntry_other (l : JEntries) (k k2 : String) (v : JVal)
    (h : k2 ≠ k) :
    lookupEntries (setEntry l k v) k2 = lookupEntries l k2 := by
  unfold setEntry
  by_cases hs : (lookupEntries l k).isSome
  · rw [if_pos hs, lookupEntries_mapSet_other _ _ _ _ h]
  · rw [if_neg hs, lookupEntries_append]
    cases hl : lookupEntries l k2 <;> simp [lookupEntries, Ne.symm h]

/-! ### Decomposition of assignDefaults into value part and state part -/

/-- The value part of the `assignDefaults` walk, free of the warning
state (the state never influences which value is produced). -/
def assignResult (cpus : Int) : JEntries → Except String JEntries
  | [] => .ok []
  | (k, v) :: rest =>
    if k == "distDir" && jvalBeq v (.str "public") then .error distDirErrorMsg
    else
      match assignResult cpus rest with
      | .ok r2 => .ok ((k, transformEntry cpus k v) :: r2)
      | .error e => .error e

theorem assignDefaultsGo_snd (cpus : Int) (u : JEntries) :
    ∀ s : WarnState, (assignDefaultsGo cpus s u).2 = assignResult cpus u := by
  induction u with
  | nil => intro s; rfl
  | cons p r ih =>
    intro s
    obtain ⟨k, v⟩ := p
    simp only [assignDefaultsGo, assignResult]
    by_cases hc : (k == "distDir" && jvalBeq v (.str "public")) = true
    · rw [if_pos hc, if_pos hc]
    · rw [if_neg hc, if_neg hc]
      have key : ∀ s' : WarnState,
          (match assignDefaultsGo cpus s' r with
            | (s2, .ok rest2) => (s2, Except.ok ((k, transformEntry cpus k v) :: rest2))
            | (s2, .error e) => (s2, .error e)).2 =
          match assignResult cpus r with
            | .ok r2 => Except.ok ((k, transformEntry cpus k v) :: r2)
            | .error e => Except.error e := by
        intro s'
        rcases hgo : assignDefaultsGo cpus s' r with ⟨s2, res⟩
        have h2 := ih s'
        rw [hgo] at h2
        simp only at h2
        rw [← h2]
        cases res <;> rfl
      exact key _

theorem jvalBeq_str_iff (v : JVal) (t : String) :
    jvalBeq v (.str t) = true ↔ v = .str t := by
  cases v <;> simp [jvalBeq]

theorem jvalBeq_str_eq_false {v : JVal} {t : String} (hv : v ≠ .str t) :
    jvalBeq v (.str t) = false := by
  cases hb : jvalBeq v (.str t)
  · rfl
  · exact absurd ((jvalBeq_str_iff v t).mp hb) hv

theorem assignResult_ok_of_not_mem (cpus : Int) (u : JEntries)
    (h : ("distDir", JVal.str "public") ∉ u) :
    assignResult cpus u = .ok (u.map fun p => (p.1, transformEntry cpus p.1 p.2)) := by
  induction u with
  | nil => rfl
  | cons p r ih =>
    obtain ⟨k, v⟩ := p
    have hhead : ¬(k = "distDir" ∧ v = JVal.str "public") := by
      intro hkv
      exact h (by simp [hkv.1, hkv.2])
    have hrest : ("distDir", JVal.str "public") ∉ r :=
      fun hr => h (List.mem_cons_of_mem _ hr)
    have hc : (k == "distDir" && jvalBeq v (.str "public")) = false := by
      by_cases hk : k = "distDir"
      · subst hk
        by_cases hv : v = JVal.str "public"
        · exact absurd ⟨rfl, hv⟩ hhead
        · simp [jvalBeq_str_eq_false hv]
      · simp [hk]
    simp only [assignResult, hc]
    simp [ih hrest]

theorem assignResult_error_of_mem (cpus : Int) (u : JEntries)
    (h : ("distDir", JVal.str "public") ∈ u) :
    assignResult cpus u = .error distDirErrorMsg := by
  induction u with
  | nil => simp at h
  | cons p r ih =>
    obtain ⟨k, v⟩ := p
    by_cases hc : (k == "distDir" && jvalBeq v (.str "public")) = true
    · simp only [assignResult]
      rw [if_pos hc]
    · have hr : ("distDir", JVal.str "public") ∈ r := by
        rcases List.mem_cons.mp h with heq | hr
        · exfalso
          apply hc
          injection heq with h1 h2
          subst h1
          subst h2
          rfl
        · exact hr
      simp only [assignResult]
      rw [if_neg hc, ih hr]

theorem assignResult_ok_eq (cpus : Int) (u : JEntries) (m : JEntries)
    (h : assignResult cpus u = .ok m) :
    m = u.map fun p => (p.1, transformEntry cpus p.1 p.2) := by
  by_cases hmem : ("distDir", JVal.str "public") ∈ u
  · rw [assignResult_error_of_mem cpus u hmem] at h
    cases h
  · rw [assignResult_ok_of_not_mem cpus u hmem] at h
    cases h
    rfl

theorem assignDefaults_snd (cpus : Int) (s : WarnState) (u : JEntries) :
    (assignDefaults cpus s u).2 =
      match assignResult cpus u with
      | .ok u2 => .ok (mergeEntries (defaultConfig cpus) u2)
      | .error e => .error e := by
  unfold assignDefaults
  split
  · rename_i s2 u2 heq
    have h2 := assignDefaultsGo_snd cpus u s
    rw [heq] at h2
    simp only at h2
    rw [← h2]
  · rename_i s2 e heq
    have h2 := assignDefaultsGo_snd cpus u s
    rw [heq] at h2
    simp only at h2
    rw [← h2]

theorem assignDefaults_fst (cpus : Int) (s : WarnState) (u : JEntries) :
    (assignDefaults cpus s u).1 = (assignDefaultsGo cpus s u).1 := by
  unfold assignDefaults
  split <;> rename_i s2 x heq <;> rw [heq]

/-! ### The warning flag: reachable states and the set-once invariant -/

theorem experimentalWarning_idem (s : WarnState) :
    experimentalWarning (experimentalWarning s) = experimentalWarning s := by
  unfold experimentalWarning
  by_cases h : s.warned <;> simp [h]

/-- The states a piece of the loader can leave behind: the input state
itself, or the input state with the warning fired. -/
def warnReach (s s1 : WarnState) : Prop :=
  s1 = s ∨ s1 = experimentalWarning s

theorem warnReach_refl (s : WarnState) : warnReach s s := Or.inl rfl

theorem warnReach_trans {s s1 s2 : WarnState}
    (h1 : warnReach s s1) (h2 : warnReach s1 s2) : warnReach s s2 := by
  rcases h1 with h1 | h1 <;> rcases h2 with h2 | h2 <;> subst h1 <;> subst h2
  · exact Or.inl rfl
  · exact Or.inr rfl
  · exact Or.inr rfl
  · exact Or.inr (experimentalWarning_idem s)

theorem assignDefaultsGo_fst (cpus : Int) (u : JEntries) :
    ∀ s : WarnState, warnReach s (assignDefaultsGo cpus s u).1 := by
  induction u with
  | nil => intro s; exact warnReach_refl s
  | cons p r ih =>
    intro s
    obtain ⟨k, v⟩ := p
    simp only [assignDefaultsGo]
    have hstep : ∀ s1 : WarnState, warnReach s s1 →
        warnReach s (if k == "distDir" && jvalBeq v (.str "public") then
            (s1, Except.error distDirErrorMsg)
          else
            match assignDefaultsGo cpus s1 r with
            | (s2, .ok rest2) => (s2, Except.ok ((k, transformEntry cpus k v) :: rest2))
            | (s2, .error e) => (s2, .error e)).1 := by
      intro s1 h1
      by_cases hc : (k == "distDir" && jvalBeq v (.str "public")) = true
      · rw [if_pos hc]
        exact h1
      · rw [if_neg hc]
        rcases hgo : assignDefaultsGo cpus s1 r with ⟨s2, res⟩
        have h2 := ih s1
        rw [hgo] at h2
        cases res <;> exact warnReach_trans h1 h2
    apply hstep
    by_cases hw : (k == "experimental" && truthy v &&
        !(match lookupEntries (defaultConfig cpus) k with
          | some d => jvalBeq v d
          | none => false)) = true
    · rw [if_pos hw]
      exact Or.inr rfl
    · rw [if_neg hw]
      exact warnReach_refl s

theorem assignDefaults_reach (cpus : Int) (s : WarnState) (u : JEntries) :
    warnReach s (assignDefaults cpus s u).1 := by
  rw [assignDefaults_fst]
  exact assignDefaultsGo_fst cpus u s

theorem loadConfig_reach (cpus : Int) (fs : FS) (phase dir : String)
    (cc : Option JEntries) (s : WarnState) :
    warnReach s (loadConfig cpus fs phase dir cc s).1 := by
  unfold loadConfig
  cases cc with
  | some c => exact assignDefaults_reach cpus s _
  | none =>
    have hnof : warnReach s (loadConfigNoFile cpus fs dir s).1 := by
      unfold loadConfigNoFile
      cases fs.findUpNonJs dir with
      | some p =>
        simp only
        by_cases hl : (p.length != 0) = true
        · rw [if_pos hl]; exact warnReach_refl s
        · rw [if_neg hl]; exact warnReach_refl s
      | none => exact warnReach_refl s
    have hchecks : ∀ userConfig, warnReach s (loadConfigChecks cpus s userConfig).1 := by
      intro userConfig
      unfold loadConfigChecks
      simp only
      split
      · exact warnReach_refl s
      · split
        · exact warnReach_refl s
        · split
          · exact warnReach_refl s
          · exact assignDefaults_reach cpus s _
    have hfound : ∀ path, warnReach s (loadConfigFound cpus fs phase path s).1 := by
      intro path
      unfold loadConfigFound
      cases normalizeConfig cpus phase (moduleEffective (fs.loadModule path)) with
      | error e => exact warnReach_refl s
      | ok userConfig =>
        simp only
        exact hchecks userConfig
    cases fs.findUpJs dir with
    | some path =>
      simp only
      by_cases hl : (path.length != 0) = true
      · rw [if_pos hl]; exact hfound path
      · rw [if_neg hl]; exact hnof
    | none => exact hnof

/-- The set-once invariant: at most one emission ever, and none while the
flag is still unset. -/
def warnInv (s : WarnState) : Prop :=
  s.emitted ≤ 1 ∧ (s.warned = false → s.emitted = 0)

theorem warnInv_experimentalWarning {s : WarnState} (h : warnInv s) :
    warnInv (experimentalWarning s) := by
  unfold experimentalWarning
  by_cases hw : s.warned
  · simpa [hw] using h
  · simp only [hw, if_false, Bool.false_eq_true]
    refine ⟨?_, fun hc => by simp at hc⟩
    have : s.emitted = 0 := h.2 (by simpa using hw)
    simp [warnInv, this]

theorem warnInv_reach {s s1 : WarnState} (h : warnInv s) (hr : warnReach s s1) :
    warnInv s1 := by
  rcases hr with hr | hr
  · exact hr ▸ h
  · exact hr ▸ warnInv_experimentalWarning h

theorem warned_monotone_reach {s s1 : WarnState} (hr : warnReach s s1)
    (h : s.warned = true) : s1.warned = true := by
  rcases hr with hr | hr
  · exact hr ▸ h
  · subst hr
    unfold experimentalWarning
    rw [h]
    simpa using h

theorem runCalls_warnInv (calls : List LoadCall) :
    ∀ s : WarnState, warnInv s → warnInv (runCalls calls s) := by
  induction calls with
  | nil => intro s h; exact h
  | cons c cs ih =>
    intro s h
    have hstep := loadConfig_reach c.cpus c.fs c.phase c.dir c.customConfig s
    exact ih _ (warnInv_reach h hstep)

theorem runCalls_warned_monotone (calls : List LoadCall) :
    ∀ s : WarnState, s.warned = true → (runCalls calls s).warned = true := by
  induction calls with
  | nil => intro s h; exact h
  | cons c cs ih =>
    intro s h
    have hstep := loadConfig_reach c.cpus c.fs c.phase c.dir c.customConfig s
    exact ih _ (warned_monotone_reach hstep h)

/-! ### The found-configuration pipeline, step by step -/

theorem getProp_ampNormalize (v : JVal) (k : String) (hk : k ≠ "amp") :
    getProp (ampNormalize v) k = getProp v k := by
  unfold ampNormalize
  split
  · split
    · split
      · split
        · simp only [getProp]
          exact lookupEntries_setEntry_other _ _ _ _ hk
        · rfl
      · rfl
    · rfl
  · rfl

theorem loadConfig_found_eq (cpus : Int) (fs : FS) (phase dir path : String)
    (s : WarnState) (hf : fs.findUpJs dir = some path) (hlen : path.length ≠ 0) :
    loadConfig cpus fs phase dir none s = loadConfigFound cpus fs phase path s := by
  unfold loadConfig
  simp only
  rw [hf]
  simp only
  rw [if_pos (by simpa using hlen)]

theorem loadConfigFound_ok_eq (cpus : Int) (fs : FS) (phase path : String)
    (s : WarnState) (userConfig : JVal)
    (hn : normalizeConfig cpus phase (moduleEffective (fs.loadModule path)) = .ok userConfig) :
    loadConfigFound cpus fs phase path s = loadConfigChecks cpus s userConfig := by
  unfold loadConfigFound
  rw [hn]

theorem loadConfigChecks_target_error (cpus : Int) (s : WarnState) (uc : JVal)
    (ht : truthyO (getProp uc "target") = true)
    (hs : strIncludesO targets (getProp uc "target") = false) :
    loadConfigChecks cpus s uc = (s, .error (invalidTargetMsg (getProp uc "target"))) := by
  unfold loadConfigChecks
  simp only
  rw [if_pos (by rw [ht, hs]; rfl)]

theorem loadConfigChecks_runtime_isErr (cpus : Int) (s : WarnState) (uc : JVal)
    (ht : truthyO (getProp uc "target") = true)
    (hsv : isStrVal (getProp uc "target") "server" = false)
    (hrc : (truthyO (getProp uc "publicRuntimeConfig") = true ∧
            jsKeysLengthO (getProp uc "publicRuntimeConfig") ≠ 0) ∨
           (truthyO (getProp uc "serverRuntimeConfig") = true ∧
            jsKeysLengthO (getProp uc "serverRuntimeConfig") ≠ 0)) :
    exceptOk (loadConfigChecks cpus s uc).2 = false := by
  unfold loadConfigChecks
  simp only
  by_cases h1 : (truthyO (getProp uc "target")
      && !(strIncludesO targets (getProp uc "target"))) = true
  · rw [if_pos h1]; rfl
  · rw [if_neg h1]
    have h2 : (truthyO (getProp (ampNormalize uc) "target")
        && !(isStrVal (getProp (ampNormalize uc) "target") "server")
        && ((truthyO (getProp (ampNormalize uc) "publicRuntimeConfig")
              && jsKeysLengthO (getProp (ampNormalize uc) "publicRuntimeConfig") != 0)
            || (truthyO (getProp (ampNormalize uc) "serverRuntimeConfig")
              && jsKeysLengthO (getProp (ampNormalize uc) "serverRuntimeConfig") != 0))) = true := by
      rw [getProp_ampNormalize uc "target" (by decide),
          getProp_ampNormalize uc "publicRuntimeConfig" (by decide),
          getProp_ampNormalize uc "serverRuntimeConfig" (by decide),
          ht, hsv]
      rcases hrc with ⟨hp, hn0⟩ | ⟨hp, hn0⟩
      · rw [hp]
        simp [hn0]
      · rw [hp]
        simp [hn0]
    rw [if_pos h2]
    rfl

/-- The configuration record carried by a success result (for stating
closed corollaries). -/
def exceptPayload : Except String JEntries → JEntries
  | .ok r => r
  | .error _ => []

/-! ### Concrete filesystems used by witnesses and counterexamples -/

/-- A directory tree with no configuration file at all. -/
def fsNone : FS where
  findUpJs := fun _ => none
  findUpNonJs := fun _ => none
  loadModule := fun _ => ⟨none, .value .null⟩

/-- A directory tree holding only `next.config.json`. -/
def fsJson : FS where
  findUpJs := fun _ => none
  findUpNonJs := fun _ => some "/proj/next.config.json"
  loadModule := fun _ => ⟨none, .value .null⟩

/-- A configuration file exporting `\x7b target: 'bogus' \x7d`. -/
def fsBogus : FS where
  findUpJs := fun _ => some "/proj/next.config.js"
  findUpNonJs := fun _ => none
  loadModule := fun _ => ⟨none, .value (.obj [("target", .str "bogus")])⟩

/-- A configuration file exporting `\x7b target: '' \x7d` (a present but
falsy target). -/
def fsEmptyTarget : FS where
  findUpJs := fun _ => some "/proj/next.config.js"
  findUpNonJs := fun _ => none
  loadModule := fun _ => ⟨none, .value (.obj [("target", .str "")])⟩

/-- A configuration file exporting `\x7b target: 'serverless' \x7d`. -/
def fsServerless : FS where
  findUpJs := fun _ => some "/proj/next.config.js"
  findUpNonJs := fun _ => none
  loadModule := fun _ => ⟨none, .value (.obj [("target", .str "serverless")])⟩

/-- A configuration file combining `target: 'server'` with a non-empty
`publicRuntimeConfig`. -/
def fsServerRuntime : FS where
  findUpJs := fun _ => some "/proj/next.config.js"
  findUpNonJs := fun _ => none
  loadModule := fun _ =>
    ⟨none, .value (.obj [("target", .str "server"), ("publicRuntimeConfig", .obj [("a", .num 1)])])⟩

/-- A configuration file combining `target: 'serverless'` with a
non-empty `publicRuntimeConfig`. -/
def fsServerlessRuntime : FS where
  findUpJs := fun _ => some "/proj/next.config.js"
  findUpNonJs := fun _ => none
  loadModule := fun _ =>
    ⟨none, .value (.obj [("target", .str "serverless"), ("publicRuntimeConfig", .obj [("a", .num 1)])])⟩

/-- A configuration file combining a present-but-falsy `target` with a
non-empty `publicRuntimeConfig`. -/
def fsRuntimeFalsy : FS where
  findUpJs := fun _ => some "/proj/next.config.js"
  findUpNonJs := fun _ => none
  loadModule := fun _ =>
    ⟨none, .value (.obj [("target", .str ""), ("publicRuntimeConfig", .obj [("a", .num 1)])])⟩

/-- A configuration file setting `amp.canonicalBase` with a trailing
slash. -/
def fsCanon : FS where
  findUpJs := fun _ => some "/proj/next.config.js"
  findUpNonJs := fun _ => none
  loadModule := fun _ => ⟨none, .value (.obj [("amp", .obj [("canonicalBase", .str "https://x.com/")])])⟩

/-! ### Claim theorems -/

/-- C9: `isTargetLikeServerless target` is true exactly when `target` is
`serverless` or `experimental-serverless-trace`; in particular it is
false for `server`. -/
theorem isTargetLikeServerless_spec :
    ∀ t : String,
      (isTargetLikeServerless t = true ↔
        t = "serverless" ∨ t = "experimental-serverless-trace")
      ∧ isTargetLikeServerless "server" = false := by
  intro t
  constructor
  · unfold isTargetLikeServerless
    simp
  · rfl

/-- C4 counterexample: a callable export returning `null` is not used —
probing it for a `then` function crashes with a TypeError — although the
returned value does not look like a promise, and the raised error is not
the promise configuration error. -/
theorem normalizeConfig_null_cex :
    normalizeConfig 1 "phase-x" (.factory fun _ _ => JVal.null) = .error thenAccessTypeError
    ∧ isThenable JVal.null = false
    ∧ (thenAccessTypeError == promiseErrorMsg) = false :=
  ⟨rfl, rfl, rfl⟩

/-- C4 (amended): a callable configuration export is invoked with the
phase and a helper record holding the default configuration, and the
outcome depends on the callable only through its value at that one
argument pair; a nullish return value crashes the probe for a `then`
function with a TypeError; otherwise a return value exposing a `then`
function is rejected with the promise error, and any other return value
is used; a non-callable export is used as-is. -/
theorem normalizeConfig_spec :
    ∀ (cpus : Int) (phase : String) (f : String → JVal → JVal) (v : JVal),
      (f phase (.obj [("defaultConfig", .obj (defaultConfig cpus))]) = .null →
        normalizeConfig cpus phase (.factory f) = .error thenAccessTypeError)
      ∧ (f phase (.obj [("defaultConfig", .obj (defaultConfig cpus))]) ≠ .null →
          isThenable (f phase (.obj [("defaultConfig", .obj (defaultConfig cpus))])) = true →
          normalizeConfig cpus phase (.factory f) = .error promiseErrorMsg)
      ∧ (f phase (.obj [("defaultConfig", .obj (defaultConfig cpus))]) ≠ .null →
          isThenable (f phase (.obj [("defaultConfig", .obj (defaultConfig cpus))])) = false →
          normalizeConfig cpus phase (.factory f) =
            .ok (f phase (.obj [("defaultConfig", .obj (defaultConfig cpus))])))
      ∧ normalizeConfig cpus phase (.value v) = .ok v
      ∧ ∀ g : String → JVal → JVal,
          f phase (.obj [("defaultConfig", .obj (defaultConfig cpus))]) =
            g phase (.obj [("defaultConfig", .obj (defaultConfig cpus))]) →
          normalizeConfig cpus phase (.factory f) = normalizeConfig cpus phase (.factory g) := by
  intro cpus phase f v
  refine ⟨?_, ?_, ?_, rfl, ?_⟩
  · intro hnull
    simp only [normalizeConfig]
    rw [hnull]
  · intro hne hth
    simp only [normalizeConfig]
    cases hc : f phase (.obj [("defaultConfig", .obj (defaultConfig cpus))]) <;>
      first
        | exact absurd hc hne
        | (rw [hc] at hth; simp [hth])
  · intro hne hth
    simp only [normalizeConfig]
    cases hc : f phase (.obj [("defaultConfig", .obj (defaultConfig cpus))]) <;>
      first
        | exact absurd hc hne
        | (rw [hc] at hth; simp [hth])
  · intro g hg
    simp only [normalizeConfig]
    rw [hg]

/-- C4 witness: a factory returning a thenable is rejected with the
promise error, a factory returning a plain record is used as-is, and two
different callables agreeing at the phase/helper pair normalize
identically. -/
theorem normalizeConfig_spec_witness :
    normalizeConfig 1 "phase-development-server"
        (.factory fun _ _ => JVal.obj [("then", JVal.func "then-method")]) =
      .error promiseErrorMsg
    ∧ normalizeConfig 1 "phase-development-server"
        (.factory fun _ _ => JVal.obj [("a", JVal.num 1)]) =
      .ok (JVal.obj [("a", JVal.num 1)])
    ∧ normalizeConfig 1 "phase-development-server" (.factory fun p _ => JVal.str p) =
        normalizeConfig 1 "phase-development-server"
          (.factory fun _ _ => JVal.str "phase-development-server") :=
  ⟨(normalizeConfig_spec 1 "phase-development-server"
      (fun _ _ => JVal.obj [("then", JVal.func "then-method")]) JVal.null).2.1
      (by simp) rfl,
   (normalizeConfig_spec 1 "phase-development-server"
      (fun _ _ => JVal.obj [("a", JVal.num 1)]) JVal.null).2.2.1
      (by simp) rfl,
   (normalizeConfig_spec 1 "phase-development-server" (fun p _ => JVal.str p) JVal.null).2.2.2.2
      (fun _ _ => JVal.str "phase-development-server") rfl⟩

/-- C10: a truthy inline configuration short-circuits `loadConfig` to the
bare merge with `configOrigin: 'server'` — no filesystem walk, no
normalization, none of the file-branch checks — so the result is
independent of the filesystem, the phase and the directory, and an inline
`target: 'bogus'` yields a merged configuration (carrying that target)
instead of the invalid-target error. -/
theorem loadConfig_inline_spec :
    ∀ (cpus : Int) (fs fs2 : FS) (phase dir phase2 dir2 : String)
      (c : JEntries) (s : WarnState),
      loadConfig cpus fs phase dir (some c) s =
        assignDefaults cpus s (mergeEntries [("configOrigin", .str "server")] c)
      ∧ loadConfig cpus fs phase dir (some c) s =
          loadConfig cpus fs2 phase2 dir2 (some c) s
      ∧ (match (loadConfig cpus fs phase dir (some [("target", .str "bogus")]) s).2 with
         | .ok r => lookupEntries r "target"
         | .error _ => none) = some (.str "bogus") := by
  intro cpus fs fs2 phase dir phase2 dir2 c s
  refine ⟨rfl, rfl, ?_⟩
  rw [show loadConfig cpus fs phase dir (some [("target", JVal.str "bogus")]) s
      = assignDefaults cpus s [("configOrigin", JVal.str "server"), ("target", JVal.str "bogus")]
      from rfl]
  rw [assignDefaults_snd]
  rw [show assignResult cpus [("configOrigin", JVal.str "server"), ("target", JVal.str "bogus")]
      = Except.ok [("configOrigin", JVal.str "server"), ("target", JVal.str "bogus")] from rfl]
  simp only
  rw [lookupEntries_mergeEntries]
  rfl

/-- C7: with no inline configuration, no supported configuration file and
no unsupported-extension variant, `loadConfig` returns the default record
unchanged; when an unsupported-extension variant is found, it raises the
error naming that file and the two supported replacements. -/
theorem loadConfig_no_file_spec :
    ∀ (cpus : Int) (fs : FS) (phase dir : String) (s : WarnState),
      (fs.findUpJs dir = none → fs.findUpNonJs dir = none →
        loadConfig cpus fs phase dir none s = (s, .ok (defaultConfig cpus)))
      ∧ (∀ p : String, fs.findUpJs dir = none → fs.findUpNonJs dir = some p →
          p.length ≠ 0 →
          loadConfig cpus fs phase dir none s = (s, .error (nonJsErrorMsg p))) := by
  intro cpus fs phase dir s
  constructor
  · intro h1 h2
    unfold loadConfig
    simp only
    rw [h1]
    unfold loadConfigNoFile
    rw [h2]
  · intro p h1 h2 hlen
    unfold loadConfig
    simp only
    rw [h1]
    unfold loadConfigNoFile
    rw [h2]
    simp only
    rw [if_pos (by simpa using hlen)]

/-- C7 witness: the two branches at concrete directory trees. -/
theorem loadConfig_no_file_spec_witness :
    loadConfig 1 fsNone "phase-x" "/proj" none ⟨false, 0⟩ = (⟨false, 0⟩, .ok (defaultConfig 1)) ∧
    loadConfig 1 fsJson "phase-x" "/proj" none ⟨false, 0⟩ =
      (⟨false, 0⟩, .error (nonJsErrorMsg "/proj/next.config.json")) :=
  ⟨(loadConfig_no_file_spec 1 fsNone "phase-x" "/proj" ⟨false, 0⟩).1 rfl rfl,
   (loadConfig_no_file_spec 1 fsJson "phase-x" "/proj" ⟨false, 0⟩).2 "/proj/next.config.json"
     rfl rfl (by decide)⟩

theorem mem_mergeEntries_configOrigin (c : JEntries) (k : String) (v : JVal)
    (hk : k ≠ "configOrigin") (h : (k, v) ∈ c) :
    (k, v) ∈ mergeEntries [("configOrigin", JVal.str "server")] c := by
  unfold mergeEntries
  apply List.mem_append_right
  apply List.mem_filter.mpr
  refine ⟨h, ?_⟩
  simp only [lookupEntries]
  rw [if_neg (fun hc => hk hc.symm)]
  rfl

theorem not_mem_mergeEntries_configOrigin (c : JEntries) (k : String) (v : JVal)
    (hk : k ≠ "configOrigin") (h : (k, v) ∉ c) :
    (k, v) ∉ mergeEntries [("configOrigin", JVal.str "server")] c := by
  intro hmem
  unfold mergeEntries at hmem
  rcases List.mem_append.mp hmem with hm | hm
  · have hk1 : ((k, v) : String × JVal).1 = "configOrigin" := by
      rcases List.mem_map.mp hm with ⟨p, hp, hfp⟩
      have hp1 : p = ("configOrigin", JVal.str "server") := by simpa using hp
      subst hp1
      rw [← hfp]
      cases hl : lookupEntries c "configOrigin" <;> simp [hl]
    exact hk hk1
  · exact h (List.mem_filter.mp hm).1

/-- C6: setting `distDir: 'public'` makes the merger (reached by both the
file path and the inline path of `loadConfig`) throw the
documentation-referencing reserved-directory error, and in particular
every inline load with that entry fails with it; without that entry the
merger never raises any error, and every inline load succeeds. -/
theorem distDir_public_spec :
    (∀ (cpus : Int) (s : WarnState) (u : JEntries),
      ("distDir", JVal.str "public") ∈ u →
      (assignDefaults cpus s u).2 = .error distDirErrorMsg)
    ∧ (∀ (cpus : Int) (s : WarnState) (u : JEntries),
        ("distDir", JVal.str "public") ∉ u →
        exceptOk (assignDefaults cpus s u).2 = true)
    ∧ (∀ (cpus : Int) (fs : FS) (phase dir : String) (s : WarnState) (c : JEntries),
        ("distDir", JVal.str "public") ∈ c →
        (loadConfig cpus fs phase dir (some c) s).2 = .error distDirErrorMsg)
    ∧ (∀ (cpus : Int) (fs : FS) (phase dir : String) (s : WarnState) (c : JEntries),
        ("distDir", JVal.str "public") ∉ c →
        exceptOk (loadConfig cpus fs phase dir (some c) s).2 = true) := by
  have herr : ∀ (cpus : Int) (s : WarnState) (u : JEntries),
      ("distDir", JVal.str "public") ∈ u →
      (assignDefaults cpus s u).2 = .error distDirErrorMsg := by
    intro cpus s u h
    rw [assignDefaults_snd, assignResult_error_of_mem cpus u h]
  have hok : ∀ (cpus : Int) (s : WarnState) (u : JEntries),
      ("distDir", JVal.str "public") ∉ u →
      exceptOk (assignDefaults cpus s u).2 = true := by
    intro cpus s u h
    rw [assignDefaults_snd, assignResult_ok_of_not_mem cpus u h]
    rfl
  refine ⟨herr, hok, ?_, ?_⟩
  · intro cpus fs phase dir s c h
    exact herr cpus s _ (mem_mergeEntries_configOrigin c _ _ (by decide) h)
  · intro cpus fs phase dir s c h
    exact hok cpus s _ (not_mem_mergeEntries_configOrigin c _ _ (by decide) h)

/-- C6 witness: `distDir: 'public'` fails with the reserved-directory
error both inline and through the merger; `distDir: 'out'` succeeds. -/
theorem distDir_public_spec_witness :
    (assignDefaults 1 ⟨false, 0⟩ [("distDir", JVal.str "public")]).2 =
      .error distDirErrorMsg
    ∧ (loadConfig 1 fsNone "phase-x" "/proj"
        (some [("distDir", JVal.str "public")]) ⟨false, 0⟩).2 = .error distDirErrorMsg
    ∧ exceptOk (assignDefaults 1 ⟨false, 0⟩ [("distDir", JVal.str "out")]).2 = true :=
  ⟨distDir_public_spec.1 1 ⟨false, 0⟩ [("distDir", JVal.str "public")] (by simp),
   distDir_public_spec.2.2.1 1 fsNone "phase-x" "/proj" ⟨false, 0⟩
     [("distDir", JVal.str "public")] (by simp),
   distDir_public_spec.2.1 1 ⟨false, 0⟩ [("distDir", JVal.str "out")] (by simp)⟩

/-- C2 counterexample: a configuration file whose `target` is the empty
string — a present `target` outside the valid set — loads without any
error (the check only fires for truthy values), and the merged result
still carries that invalid target. -/
theorem loadConfig_invalid_target_cex :
    strIncludes targets (.str "") = false
    ∧ (match (loadConfig 1 fsEmptyTarget "phase-x" "/proj" none ⟨false, 0⟩).2 with
       | .ok r => some (lookupEntries r "target")
       | .error _ => none) = some (some (.str "")) :=
  ⟨rfl, rfl⟩

/-- C2 (amended): for a file-loaded configuration whose `target` is truthy
and outside the valid set, `loadConfig` raises the invalid-target error
(whose text lists the valid set); loading `target: 'serverless'`
succeeds.  A present but falsy `target` (such as the empty string) is not
checked. -/
theorem loadConfig_invalid_target_spec :
    (∀ (cpus : Int) (fs : FS) (phase dir path : String) (s : WarnState) (userConfig : JVal),
      fs.findUpJs dir = some path → path.length ≠ 0 →
      normalizeConfig cpus phase (moduleEffective (fs.loadModule path)) = .ok userConfig →
      truthyO (getProp userConfig "target") = true →
      strIncludesO targets (getProp userConfig "target") = false →
      (loadConfig cpus fs phase dir none s).2 =
        .error (invalidTargetMsg (getProp userConfig "target")))
    ∧ exceptOk (loadConfig 1 fsServerless "phase-x" "/proj" none ⟨false, 0⟩).2 = true := by
  constructor
  · intro cpus fs phase dir path s userConfig hf hlen hn ht hs
    rw [loadConfig_found_eq cpus fs phase dir path s hf hlen,
        loadConfigFound_ok_eq cpus fs phase path s userConfig hn,
        loadConfigChecks_target_error cpus s userConfig ht hs]
  · rfl

/-- C2 witness: `target: 'bogus'` raises the invalid-target error and
`target: 'serverless'` loads. -/
theorem loadConfig_invalid_target_spec_witness :
    (loadConfig 1 fsBogus "phase-x" "/proj" none ⟨false, 0⟩).2 =
      .error (invalidTargetMsg (some (JVal.str "bogus")))
    ∧ exceptOk (loadConfig 1 fsServerless "phase-x" "/proj" none ⟨false, 0⟩).2 = true :=
  ⟨loadConfig_invalid_target_spec.1 1 fsBogus "phase-x" "/proj" "/proj/next.config.js"
      ⟨false, 0⟩ (.obj [("target", JVal.str "bogus")]) rfl (by decide) rfl rfl rfl,
   loadConfig_invalid_target_spec.2⟩

/-- C3 counterexample: a configuration file combining a present-but-falsy
`target` (the empty string, which is not `'server'`) with a non-empty
`publicRuntimeConfig` record loads without any error: the
incompatibility check only fires for truthy targets. -/
theorem loadConfig_runtime_config_cex :
    (match (loadConfig 1 fsRuntimeFalsy "phase-x" "/proj" none ⟨false, 0⟩).2 with
     | .ok r => some (lookupEntries r "target", lookupEntries r "publicRuntimeConfig")
     | .error _ => none) =
      some (some (.str ""), some (.obj [("a", .num 1)])) :=
  rfl

/-- C3 (amended): for a file-loaded configuration whose `target` is truthy
and not `'server'`, a truthy `publicRuntimeConfig` or
`serverRuntimeConfig` with at least one key makes `loadConfig` raise a
configuration error; with `target: 'server'` the same runtime-config
values load.  A present but falsy `target` is not checked. -/
theorem loadConfig_runtime_config_spec :
    (∀ (cpus : Int) (fs : FS) (phase dir path : String) (s : WarnState) (userConfig : JVal),
      fs.findUpJs dir = some path → path.length ≠ 0 →
      normalizeConfig cpus phase (moduleEffective (fs.loadModule path)) = .ok userConfig →
      truthyO (getProp userConfig "target") = true →
      isStrVal (getProp userConfig "target") "server" = false →
      ((truthyO (getProp userConfig "publicRuntimeConfig") = true ∧
        jsKeysLengthO (getProp userConfig "publicRuntimeConfig") ≠ 0) ∨
       (truthyO (getProp userConfig "serverRuntimeConfig") = true ∧
        jsKeysLengthO (getProp userConfig "serverRuntimeConfig") ≠ 0)) →
      exceptOk (loadConfig cpus fs phase dir none s).2 = false)
    ∧ exceptOk (loadConfig 1 fsServerRuntime "phase-x" "/proj" none ⟨false, 0⟩).2 = true := by
  constructor
  · intro cpus fs phase dir path s userConfig hf hlen hn ht hsv hrc
    rw [loadConfig_found_eq cpus fs phase dir path s hf hlen,
        loadConfigFound_ok_eq cpus fs phase path s userConfig hn]
    exact loadConfigChecks_runtime_isErr cpus s userConfig ht hsv hrc
  · rfl

/-- C3 witness: `target: 'serverless'` with a non-empty
`publicRuntimeConfig` raises a configuration error, while
`target: 'server'` with the same record loads. -/
theorem loadConfig_runtime_config_spec_witness :
    exceptOk (loadConfig 1 fsServerlessRuntime "phase-x" "/proj" none ⟨false, 0⟩).2 = false
    ∧ exceptOk (loadConfig 1 fsServerRuntime "phase-x" "/proj" none ⟨false, 0⟩).2 = true :=
  ⟨loadConfig_runtime_config_spec.1 1 fsServerlessRuntime "phase-x" "/proj"
      "/proj/next.config.js" ⟨false, 0⟩
      (.obj [("target", JVal.str "serverless"), ("publicRuntimeConfig", JVal.obj [("a", JVal.num 1)])])
      rfl (by decide) rfl rfl rfl (Or.inl ⟨rfl, by decide⟩),
   loadConfig_runtime_config_spec.2⟩

/-- `(canonicalBase.endsWith('/') ? canonicalBase.slice(0, -1) : canonicalBase) || ''`. -/
def stripSlashJS (cb : String) : String :=
  let stripped := if endsWithSlash cb then dropLastChar cb else cb
  if stripped = "" then "" else stripped

theorem stripSlashJS_eq (cb : String) :
    stripSlashJS cb = if endsWithSlash cb then dropLastChar cb else cb := by
  unfold stripSlashJS
  by_cases h : (if endsWithSlash cb then dropLastChar cb else cb) = "" <;> simp [h]

theorem ampNormalize_obj_eq (u a : JEntries) (cb : String)
    (hamp : lookupEntries u "amp" = some (.obj a))
    (hcb : lookupEntries a "canonicalBase" = some (.str cb))
    (hne : cb ≠ "") :
    ampNormalize (.obj u) =
      .obj (setEntry u "amp" (.obj (setEntry a "canonicalBase" (.str (stripSlashJS cb))))) := by
  unfold ampNormalize
  simp only
  rw [hamp]
  simp only
  rw [hcb]
  simp only
  rw [if_pos hne]
  rfl

theorem loadConfigChecks_ok_canonicalBase (cpus : Int) (s : WarnState)
    (u a : JEntries) (cb : String) (r : JEntries)
    (hamp : lookupEntries u "amp" = some (.obj a))
    (hcb : lookupEntries a "canonicalBase" = some (.str cb))
    (hne : cb ≠ "")
    (hok : (loadConfigChecks cpus s (.obj u)).2 = .ok r) :
    (match lookupEntries r "amp" with
     | some (.obj m) => lookupEntries m "canonicalBase"
     | _ => none) = some (.str (stripSlashJS cb)) := by
  have hA := ampNormalize_obj_eq u a cb hamp hcb hne
  unfold loadConfigChecks at hok
  simp only at hok
  rw [hA] at hok
  split at hok
  · simp at hok
  · split at hok
    · simp at hok
    · split at hok
      · simp at hok
      · simp only [toSpreadEntries] at hok
        rw [assignDefaults_snd] at hok
        cases har : assignResult cpus
            (mergeEntries [("configOrigin", JVal.str CONFIG_FILE)]
              (setEntry u "amp"
                (.obj (setEntry a "canonicalBase" (.str (stripSlashJS cb)))))) with
        | error e =>
          rw [har] at hok
          simp at hok
        | ok m =>
          rw [har] at hok
          simp only at hok
          injection hok with hr
          subst hr
          have hm := assignResult_ok_eq cpus _ m har
          subst hm
          rw [lookupEntries_mergeEntries, lookupEntries_mapTransform]
          have hMamp : lookupEntries
              (mergeEntries [("configOrigin", JVal.str CONFIG_FILE)]
                (setEntry u "amp"
                  (.obj (setEntry a "canonicalBase" (.str (stripSlashJS cb)))))) "amp" =
              some (.obj (setEntry a "canonicalBase" (.str (stripSlashJS cb)))) := by
            rw [lookupEntries_mergeEntries,
                lookupEntries_setEntry_self u "amp" _ (by rw [hamp]; rfl)]
          rw [hMamp]
          simp only [Option.map_some']
          have htr : transformEntry cpus "amp"
              (.obj (setEntry a "canonicalBase" (.str (stripSlashJS cb)))) =
              .obj (mergeEntries [("canonicalBase", JVal.str "")]
                (setEntry a "canonicalBase" (.str (stripSlashJS cb)))) := rfl
          rw [htr]
          simp only
          rw [lookupEntries_mergeEntries,
              lookupEntries_setEntry_self a "canonicalBase" _ (by rw [hcb]; rfl)]

/-- C5: a file-loaded configuration with a non-empty string
`amp.canonicalBase` reaches the merger with exactly one trailing slash
stripped, and the merged result carries that normalized value: with a
trailing slash the final character is dropped, without one the value is
unchanged. -/
theorem loadConfig_canonicalBase_spec :
    ∀ (cpus : Int) (fs : FS) (phase dir path : String) (s s2 : WarnState)
      (u a : JEntries) (cb : String) (r : JEntries),
      fs.findUpJs dir = some path → path.length ≠ 0 →
      normalizeConfig cpus phase (moduleEffective (fs.loadModule path)) = .ok (.obj u) →
      lookupEntries u "amp" = some (.obj a) →
      lookupEntries a "canonicalBase" = some (.str cb) →
      cb ≠ "" →
      loadConfig cpus fs phase dir none s = (s2, .ok r) →
      (match lookupEntries r "amp" with
       | some (.obj m) => lookupEntries m "canonicalBase"
       | _ => none) = some (.str (if endsWithSlash cb then dropLastChar cb else cb)) := by
  intro cpus fs phase dir path s s2 u a cb r hf hlen hn hamp hcb hne hload
  rw [loadConfig_found_eq cpus fs phase dir path s hf hlen,
      loadConfigFound_ok_eq cpus fs phase path s _ hn] at hload
  have hok : (loadConfigChecks cpus s (.obj u)).2 = .ok r := by rw [hload]
  rw [← stripSlashJS_eq]
  exact loadConfigChecks_ok_canonicalBase cpus s u a cb r hamp hcb hne hok

/-- C5 witness: `amp.canonicalBase: 'https://x.com/'` loads as
`'https://x.com'`. -/
theorem loadConfig_canonicalBase_spec_witness :
    (match lookupEntries
        (exceptPayload (loadConfig 1 fsCanon "phase-x" "/proj" none ⟨false, 0⟩).2) "amp" with
     | some (.obj m) => lookupEntries m "canonicalBase"
     | _ => none) = some (.str "https://x.com") :=
  loadConfig_canonicalBase_spec 1 fsCanon "phase-x" "/proj" "/proj/next.config.js"
    ⟨false, 0⟩ ⟨false, 0⟩
    [("amp", JVal.obj [("canonicalBase", JVal.str "https://x.com/")])]
    [("canonicalBase", JVal.str "https://x.com/")] "https://x.com/"
    (exceptPayload (loadConfig 1 fsCanon "phase-x" "/proj" none ⟨false, 0⟩).2)
    rfl (by decide) rfl rfl rfl (by decide) rfl

theorem assignDefaults_ok_lookup (cpus : Int) {s s2 : WarnState} {u r : JEntries}
    (h : assignDefaults cpus s u = (s2, .ok r)) (k : String) :
    lookupEntries r k =
      match lookupEntries u k with
      | some v => some (transformEntry cpus k v)
      | none => lookupEntries (defaultConfig cpus) k := by
  have hsnd : (assignDefaults cpus s u).2 = .ok r := by rw [h]
  rw [assignDefaults_snd] at hsnd
  cases har : assignResult cpus u with
  | error e =>
    rw [har] at hsnd
    simp at hsnd
  | ok m =>
    rw [har] at hsnd
    simp only at hsnd
    injection hsnd with hr
    subst hr
    have hm := assignResult_ok_eq cpus _ m har
    subst hm
    rw [lookupEntries_mergeEntries, lookupEntries_mapTransform]
    cases hu : lookupEntries u k <;> simp

/-- C1 counterexample: merging the user record `distDir: \x7b a: 1 \x7d`
(a plain-record user value over the non-record default `'.next'`) does
not replace the default outright: the result spreads the characters of
the default string underneath the user keys, so the merged `distDir`
gains an entry `"0" ↦ "."` that the user record does not have. -/
theorem assignDefaults_merge_cex :
    (match (assignDefaults 1 ⟨false, 0⟩ [("distDir", JVal.obj [("a", JVal.num 1)])]).2 with
     | .ok r => lookupEntries r "distDir"
     | .error _ => none) =
      some (.obj [("0", .str "."), ("1", .str "n"), ("2", .str "e"),
                  ("3", .str "x"), ("4", .str "t"), ("a", .num 1)])
    ∧ (match (assignDefaults 1 ⟨false, 0⟩ [("distDir", JVal.obj [("a", JVal.num 1)])]).2 with
       | .ok r =>
         match lookupEntries r "distDir" with
         | some (.obj m) => lookupEntries m "0"
         | _ => none
       | .error _ => none) = some (.str ".")
    ∧ lookupEntries [("a", JVal.num 1)] "0" = none :=
  ⟨rfl, rfl, rfl⟩

/-- C1 (amended): a successful merge yields a record with every top-level
default key present; a user key whose value and default value are both
plain records maps to their key-by-key union (user keys win, unmentioned
default keys survive); a user key with a non-record value replaces the
default outright; but a user key whose value is a plain record while the
default value is truthy and not a record maps to the spread of the
default value's enumerable entries under the user entries, and a
plain-record user value over an absent or falsy default is kept as-is. -/
theorem assignDefaults_merge_spec :
    ∀ (cpus : Int) (s s2 : WarnState) (u r : JEntries),
      assignDefaults cpus s u = (s2, .ok r) →
      (∀ k : String, (lookupEntries (defaultConfig cpus) k).isSome = true →
        (lookupEntries r k).isSome = true)
      ∧ (∀ (k : String) (m d : JEntries),
          lookupEntries u k = some (.obj m) →
          lookupEntries (defaultConfig cpus) k = some (.obj d) →
          lookupEntries r k = some (.obj (mergeEntries d m)) ∧
          ∀ k2 : String, lookupEntries (mergeEntries d m) k2 =
            match lookupEntries m k2 with
            | some w => some w
            | none => lookupEntries d k2)
      ∧ (∀ (k : String) (v : JVal),
          lookupEntries u k = some v → isPlainObject v = false →
          lookupEntries r k = some v)
      ∧ (∀ (k : String) (m : JEntries) (d : JVal),
          lookupEntries u k = some (.obj m) →
          lookupEntries (defaultConfig cpus) k = some d →
          truthy d = true → isPlainObject d = false →
          lookupEntries r k = some (.obj (mergeEntries (toSpreadEntries d) m)))
      ∧ (∀ (k : String) (m : JEntries),
          lookupEntries u k = some (.obj m) →
          (lookupEntries (defaultConfig cpus) k = none ∨
            ∃ d, lookupEntries (defaultConfig cpus) k = some d ∧ truthy d = false) →
          lookupEntries r k = some (.obj m)) := by
  intro cpus s s2 u r h
  have hl := assignDefaults_ok_lookup cpus h
  refine ⟨?_, ?_, ?_, ?_, ?_⟩
  · intro k hd
    rw [hl k]
    cases hu : lookupEntries u k
    · simpa using hd
    · simp
  · intro k m d hu hd
    constructor
    · rw [hl k, hu]
      simp only [transformEntry, truthy, isPlainObject, Bool.and_self, if_pos]
      simp only [defaultOrEmptySpread, hd, truthy, toSpreadEntries]
      rfl
    · intro k2
      rw [lookupEntries_mergeEntries]
  · intro k v hu hv
    rw [hl k, hu]
    simp [transformEntry, hv]
  · intro k m d hu hd htr hpl
    rw [hl k, hu]
    simp only [transformEntry, truthy, isPlainObject, Bool.and_self, if_pos]
    simp only [defaultOrEmptySpread, hd, htr, toSpreadEntries]
    rfl
  · intro k m hu hd
    rw [hl k, hu]
    simp only [transformEntry, truthy, isPlainObject, Bool.and_self, if_pos]
    rcases hd with hd | ⟨d, hd, htr⟩
    · simp only [defaultOrEmptySpread, hd]
      rw [mergeEntries_nil]
      rfl
    · simp only [defaultOrEmptySpread, hd, htr]
      rw [if_neg (by simp [htr])]
      rw [mergeEntries_nil]
      rfl

/-- C1 witness: merging `onDemandEntries: \x7b maxInactiveAge: 5 \x7d`
keeps the unmentioned default sibling `pagesBufferLength: 2`. -/
theorem assignDefaults_merge_spec_witness :
    (match lookupEntries
        (exceptPayload (assignDefaults 1 ⟨false, 0⟩
          [("onDemandEntries", JVal.obj [("maxInactiveAge", JVal.num 5)])]).2)
        "onDemandEntries" with
     | some (.obj m) => lookupEntries m "pagesBufferLength"
     | _ => none) = some (.num 2) := by
  have h := (assignDefaults_merge_spec 1 ⟨false, 0⟩ ⟨false, 0⟩
      [("onDemandEntries", JVal.obj [("maxInactiveAge", JVal.num 5)])]
      (exceptPayload (assignDefaults 1 ⟨false, 0⟩
        [("onDemandEntries", JVal.obj [("maxInactiveAge", JVal.num 5)])]).2)
      rfl).2.1 "onDemandEntries" [("maxInactiveAge", JVal.num 5)]
      [("maxInactiveAge", JVal.num 60000), ("pagesBufferLength", JVal.num 2)] rfl rfl
  rw [h.1]
  simp only
  rw [h.2 "pagesBufferLength"]
  rfl

/-- C8: across any sequence of `loadConfig` calls in one process starting
from the pristine state, the experimental-feature warning body runs at
most once, and the process-wide flag, once set, is never reset by any
further sequence of calls. -/
theorem experimental_warning_at_most_once :
    ∀ calls : List LoadCall,
      (runCalls calls ⟨false, 0⟩).emitted ≤ 1
      ∧ (∀ (calls2 : List LoadCall) (s : WarnState), s.warned = true →
          (runCalls calls2 s).warned = true) := by
  intro calls
  constructor
  · exact (runCalls_warnInv calls ⟨false, 0⟩ ⟨by decide, fun _ => rfl⟩).1
  · intro calls2 s h
    exact runCalls_warned_monotone calls2 s h

/-- C8 witness: two inline loads with a non-default `experimental` record
emit at most one warning, and an already-set flag survives another load. -/
theorem experimental_warning_at_most_once_witness :
    (runCalls
      [⟨1, fsNone, "phase-x", "/proj", some [("experimental", JVal.obj [("css", JVal.bool true)])]⟩,
       ⟨1, fsNone, "phase-x", "/proj", some [("experimental", JVal.obj [("css", JVal.bool true)])]⟩]
      ⟨false, 0⟩).emitted ≤ 1
    ∧ (runCalls [⟨1, fsNone, "phase-x", "/proj", none⟩] ⟨true, 1⟩).warned = true :=
  ⟨(experimental_warning_at_most_once _).1,
   (experimental_warning_at_most_once []).2 [⟨1, fsNone, "phase-x", "/proj", none⟩] ⟨true, 1⟩ rfl⟩
